import Mathlib

/-!
Verification development for the MPC controller cycle logic of the
repository (file `mpc_controller.cpp`): a shallow embedding of the
command interpolator, the reference window manager, the constraint and
weight applier and the controller cycle, together with theorems settling
the specification claims.

Durations are modelled as `Int` nanoseconds (`std::chrono::nanoseconds`),
floating point values as `FReal` (a finite rational or a non-finite
marker), and the unsigned `Index`/`size_t` arithmetic with explicit
wrap-around modulo `2 ^ 64`.
-/

namespace Mpc

/-- State dimension: `ACADO_NX == 4`, fixed by a static assert in the source. -/
def NX : Nat := 4

/-- Control dimension: `ACADO_NU == 2`, fixed by a static assert in the source. -/
def NU : Nat := 2

/-- State variable index of longitudinal velocity (`IDX_VEL_LONG = 3`). -/
def IDX_VEL_LONG : Nat := 3

/-- Control variable index of the longitudinal (jerk) control. -/
def IDX_JERK : Nat := 0

/-- Control variable index of the wheel-angle-rate control. -/
def IDX_WHEEL_ANGLE_RATE : Nat := 1

/-- Modelled from the spec: the horizon length `ACADO_N` lives in the
generated solver code, which is not among the sources; the spec fixes it to
10 in its worked example. -/
def HORIZON : Nat := 10

/-- Modelled from the spec: `MpcController::solver_time_step` is declared in
the missing header; the spec fixes the discretization step to 100 ms
(100000000 ns). -/
def solver_time_step : Int := 100000000

/-- Value of the C++ floating point types, abstracted to either a finite
rational or a non-finite value (NaN or an infinity): the claims under
verification only distinguish finite from non-finite values. -/
inductive FReal where
  | fin (q : ℚ) : FReal
  | nonfinite : FReal
deriving DecidableEq

/-- Mirror of `std::isfinite`. -/
def FReal.isFinite : FReal → Bool
  | .fin _ => true
  | .nonfinite => false

/-- Addition with non-finite propagation (finite + finite is finite in the
rational model; any non-finite operand poisons the result, as in IEEE
arithmetic for the additions performed here). -/
def FReal.add : FReal → FReal → FReal
  | .fin a, .fin b => .fin (a + b)
  | _, _ => .nonfinite

/-- Subtraction with non-finite propagation. -/
def FReal.sub : FReal → FReal → FReal
  | .fin a, .fin b => .fin (a - b)
  | _, _ => .nonfinite

/-- Scaling by a (finite) scalar with non-finite propagation. -/
def FReal.smul (t : ℚ) : FReal → FReal
  | .fin a => .fin (t * a)
  | .nonfinite => .nonfinite

/-- Modelled from the spec: `motion_common::interpolate` (not among the
sources) linearly interpolates between two values: `a + t * (b - a)`. -/
def interpolate (a b : FReal) (t : ℚ) : FReal :=
  a.add ((b.sub a).smul t)

/-- Command message: the controller's one output per cycle. -/
structure Command where
  long_accel_mps2 : FReal
  front_wheel_angle_rad : FReal
  velocity_mps : FReal
  rear_wheel_angle_rad : FReal
deriving DecidableEq

/-- Clamped remaining duration `dt_` of `interpolated_command`:
`control_lookahead_duration - x0_time_offset`, clamped from above (only) by
`step * (HORIZON - 1)`. -/
def clamped_remaining (lookahead x0_offset : Int) : Int :=
  let d := lookahead - x0_offset
  let maxDt := solver_time_step * ((HORIZON : Int) - 1)
  if d > maxDt then maxDt else d

/-- Sample index `count` of `interpolated_command`; `Int.tdiv` is the C++
division of the `std::chrono` representation type (truncation toward zero). -/
def icount (lookahead x0_offset : Int) : Int :=
  min (Int.tdiv (clamped_remaining lookahead x0_offset) solver_time_step)
    ((HORIZON : Int) - 2)

/-- Leftover duration `dt = dt_ - count * step` of `interpolated_command`. -/
def leftover (lookahead x0_offset : Int) : Int :=
  clamped_remaining lookahead x0_offset -
    icount lookahead x0_offset * solver_time_step

/-- Interpolation parameter `t = dt / step` of `interpolated_command` (the
`duration<float>` casts are modelled as exact rational division). -/
def ifrac (lookahead x0_offset : Int) : ℚ :=
  (leftover lookahead x0_offset : ℚ) / (solver_time_step : ℚ)

/-- Embedding of `MpcController::interpolated_command`.  `x` and `u` are the
solver's flat state and control arrays (indexed by `Int`, since the computed
offsets are of signed `std::chrono` representation type); the error case
mirrors the thrown `std::runtime_error` of the finiteness validation. -/
def interpolated_command (lookahead : Int) (x u : Int → FReal)
    (x0_offset : Int) : Except String Command :=
  let count := icount lookahead x0_offset
  let t := ifrac lookahead x0_offset
  let idx := count * (NU : Int)
  let longitudinal0 := u (idx + (IDX_JERK : Int))
  let lateral0 := u (idx + (IDX_WHEEL_ANGLE_RATE : Int))
  let jdx := (count + 1) * (NU : Int)
  let longitudinal1 := u (jdx + (IDX_JERK : Int))
  let lateral1 := u (jdx + (IDX_WHEEL_ANGLE_RATE : Int))
  let ret : Command :=
    { long_accel_mps2 := interpolate longitudinal0 longitudinal1 t
      front_wheel_angle_rad := interpolate lateral0 lateral1 t
      velocity_mps := x (idx * (NX : Int) + (IDX_VEL_LONG : Int))
      rear_wheel_angle_rad := .fin 0 }
  if !ret.long_accel_mps2.isFinite || !ret.front_wheel_angle_rad.isFinite then
    .error "interpolation failed, result is not finite"
  else
    .ok ret

/-- One point of a reference `Trajectory` message; the heading is the 2D
quaternion encoding (real and imaginary part). -/
structure TrajPoint where
  time_from_start : Int
  x : ℚ
  y : ℚ
  heading_re : ℚ
  heading_im : ℚ
  longitudinal_velocity_mps : ℚ
  lateral_velocity_mps : ℚ
  acceleration_mps2 : ℚ
  heading_rate_rps : ℚ
deriving DecidableEq

/-- Reference trajectory: a stamped header plus ordered points. -/
structure Trajectory where
  stamp : Int
  points : List TrajPoint
deriving DecidableEq

/-- Min/max bound pair of a `LimitsConfig` dimension. -/
structure MinMax where
  lo : ℚ
  hi : ℚ
deriving DecidableEq

/-- Actuation and state bounds of the config. -/
structure LimitsConfig where
  acceleration : MinMax
  steer_angle : MinMax
  longitudinal_velocity : MinMax
deriving DecidableEq

/-- Vehicle geometry parameters. -/
structure VehicleConfig where
  length_cg_front_axel : ℚ
  length_cg_rear_axel : ℚ
deriving DecidableEq

/-- Modelled from the spec: the optimization weights of the config (their
exact shape lives outside the sources); one nominal per-step weight and one
terminal weight. -/
structure OptimizationConfig where
  nominal_weight : ℚ
  terminal_weight : ℚ
deriving DecidableEq

/-- Controller configuration (immutable value, replaceable as a whole). -/
structure Config where
  vehicle_param : VehicleConfig
  limits : LimitsConfig
  optimization_param : OptimizationConfig
  behavior : ℚ
  do_interpolate : Bool
  control_lookahead_duration : Int
  sample_period_tolerance : Int
deriving DecidableEq

/-- Content of one per-step weight slot of the solver workspace: nominal
weights derived from the config, terminal weights derived from the config,
or zeroed. -/
inductive WSlot where
  | nominal (w : ℚ) : WSlot
  | terminal (w : ℚ) : WSlot
  | zeroed : WSlot
deriving DecidableEq

/-- Whether a weight slot holds terminal weights. -/
def WSlot.isTerminal : WSlot → Bool
  | .terminal _ => true
  | _ => false

/-- Whether a weight slot holds nominal weights. -/
def WSlot.isNominal : WSlot → Bool
  | .nominal _ => true
  | _ => false

/-- Controller state: the config, the warm-start bookkeeping index and the
solver workspace arrays (initial condition, state / control / reference
sequences, online parameters, bound arrays, weight slots). -/
structure CState where
  m_last_reference_index : Nat
  m_config : Config
  base_config : ℚ
  x0 : Nat → ℚ
  x : Int → FReal
  u : Int → FReal
  y : Nat → Option TrajPoint
  od : Nat → ℚ
  lbValues : Nat → ℚ
  ubValues : Nat → ℚ
  lbAValues : Nat → ℚ
  ubAValues : Nat → ℚ
  W : Nat → WSlot
  WN : WSlot

/-- Wrap-around size of the unsigned `Index` / `size_t` arithmetic. -/
def USIZE : Nat := 2 ^ 64

/-- Unsigned (wrapping) subtraction modulo `2 ^ 64`, as performed by the C++
code on `Index` / `size_t` values. -/
def wsub (a b : Nat) : Nat :=
  ((a % USIZE) + (USIZE - b % USIZE)) % USIZE

/-- Embedding of `MpcController::apply_parameters`: writes the two geometry
parameters identically into every one of the `HORIZON` per-step online
parameter slots (`ACADO_NOD == 2`, static assert in the source). -/
def apply_parameters (cfg : VehicleConfig) (s : CState) : CState :=
  { s with od := fun j =>
      if j < HORIZON * 2 then
        if j % 2 = 0 then cfg.length_cg_front_axel else cfg.length_cg_rear_axel
      else s.od j }

/-- Embedding of `MpcController::apply_bounds`: per horizon step, the box
bounds of the two control dimensions and the affine bounds of the one
bounded state dimension. -/
def apply_bounds (cfg : LimitsConfig) (s : CState) : CState :=
  { s with
    lbValues := fun j =>
      if j < HORIZON * 2 then
        if j % 2 = 0 then cfg.acceleration.lo else cfg.steer_angle.lo
      else s.lbValues j
    ubValues := fun j =>
      if j < HORIZON * 2 then
        if j % 2 = 0 then cfg.acceleration.hi else cfg.steer_angle.hi
      else s.ubValues j
    lbAValues := fun j =>
      if j < HORIZON then cfg.longitudinal_velocity.lo else s.lbAValues j
    ubAValues := fun j =>
      if j < HORIZON then cfg.longitudinal_velocity.hi else s.ubAValues j }

/-- Modelled from the spec: `apply_weights` (not among the sources) writes
the nominal per-step optimization weights into every horizon slot and the
terminal weight into the terminal slot, each derived from the config. -/
def apply_weights (cfg : OptimizationConfig) (s : CState) : CState :=
  { s with
    W := fun i => if i < HORIZON then .nominal cfg.nominal_weight else s.W i
    WN := .terminal cfg.terminal_weight }

/-- Embedding of `MpcController::apply_config`: parameters, bounds, weights. -/
def apply_config (cfg : Config) (s : CState) : CState :=
  apply_weights cfg.optimization_param
    (apply_bounds cfg.limits (apply_parameters cfg.vehicle_param s))

/-- Embedding of `MpcController::set_config`: replaces the held config, the
base config, and re-applies the whole config to the workspace. -/
def set_config (cfg : Config) (s : CState) : CState :=
  apply_config cfg { s with m_config := cfg, base_config := cfg.behavior }

/-- Modelled from the spec: `advance_problem` (not among the sources) rolls
the previous solution and references forward by `cnt` solver steps; vacated
tail entries keep their previous values. -/
def advance_problem (cnt : Nat) (s : CState) : CState :=
  { s with
    x := fun i =>
      if 0 ≤ i ∧ i < (((HORIZON + 1 - cnt) * NX : Nat) : Int) then
        s.x (i + ((cnt * NX : Nat) : Int))
      else s.x i
    u := fun i =>
      if 0 ≤ i ∧ i < (((HORIZON - cnt) * NU : Nat) : Int) then
        s.u (i + ((cnt * NU : Nat) : Int))
      else s.u i
    y := fun i => if i < HORIZON - cnt then s.y (i + cnt) else s.y i }

/-- Modelled from the spec: `backfill_reference` (not among the sources)
fills the vacated tail of the reference window with the next `cnt` reference
trajectory points past the advanced window. -/
def backfill_reference (traj : Trajectory) (idx cnt : Nat) (s : CState) :
    CState :=
  { s with y := fun i =>
      if HORIZON - cnt ≤ i ∧ i < HORIZON then traj.points[idx + i]?
      else s.y i }

/-- Modelled from the spec: `apply_terminal_weights i` (not among the
sources) writes the config-derived terminal weights into per-step slot `i`. -/
def apply_terminal_weights (i : Nat) (s : CState) : CState :=
  { s with W := fun j =>
      if j = i then .terminal s.m_config.optimization_param.terminal_weight
      else s.W j }

/-- Modelled from the spec: `zero_nominal_weights a b` (not among the
sources) zeroes the per-step weight slots in the range `[a, b)`. -/
def zero_nominal_weights (a b : Nat) (s : CState) : CState :=
  { s with W := fun j => if a ≤ j ∧ j < b then .zeroed else s.W j }

/-- Modelled from the spec: `zero_terminal_weights` (not among the sources)
zeroes the terminal weight slot. -/
def zero_terminal_weights (s : CState) : CState :=
  { s with WN := .zeroed }

/-- Embedding of `MpcController::update_references` (the `Index` / `size_t`
subtractions are unsigned with wrap-around, `wsub`). -/
def update_references (traj : Trajectory) (current_idx : Nat) (s : CState) :
    Bool × CState :=
  if current_idx = 0 then (true, s)
  else
    let advance_idx := wsub current_idx s.m_last_reference_index
    let s1 := advance_problem advance_idx s
    let max_pts := traj.points.length
    let s2 :=
      if HORIZON ≤ wsub max_pts current_idx then
        backfill_reference traj current_idx advance_idx s1
      else
        let receded_horizon := wsub max_pts current_idx
        zero_terminal_weights
          (zero_nominal_weights receded_horizon
            ((receded_horizon + advance_idx) % USIZE)
            (apply_terminal_weights (wsub receded_horizon 1) s1))
    (false, { s2 with m_last_reference_index := current_idx })

/-- Kinematic point used as the solver's initial condition.  The heading is
already converted to a scalar angle (`motion_common::to_angle`, defined
outside the sources, performs that conversion in the C++ code). -/
structure Point where
  x : ℚ
  y : ℚ
  heading_angle : ℚ
  longitudinal_velocity_mps : ℚ
deriving DecidableEq

/-- Embedding of `MpcController::initial_conditions`: writes the point into
the solver's initial-condition slot `x0` and the first state-sequence node. -/
def initial_conditions (p : Point) (s : CState) : CState :=
  let v : Nat → ℚ := fun i =>
    if i = 0 then p.x
    else if i = 1 then p.y
    else if i = 2 then p.heading_angle
    else if i = 3 then p.longitudinal_velocity_mps
    else s.x0 i
  { s with
    x0 := v
    x := fun i =>
      if 0 ≤ i ∧ i < 4 then
        if i = 0 then .fin p.x
        else if i = 1 then .fin p.y
        else if i = 2 then .fin p.heading_angle
        else .fin p.longitudinal_velocity_mps
      else s.x i }

/-- Embedding of `MpcController::x0_time_offset`: the reference timestamp at
the index minus the state's timestamp. -/
def x0_time_offset (traj : Trajectory) (state_stamp : Int) (idx : Nat) :
    Int :=
  (traj.stamp + ((traj.points[idx]?.map TrajPoint.time_from_start).getD 0)) -
    state_stamp

/-- Modelled from the spec: `ensure_reference_consistency` (not among the
sources) re-applies the terminal / zeroing policy for a truncated effective
horizon and reports whether it forced a cold-start-equivalent reset. -/
def ensure_reference_consistency (horizon : Nat) (s : CState) :
    Bool × CState :=
  if horizon < HORIZON then
    (true,
      zero_terminal_weights
        (zero_nominal_weights horizon HORIZON
          (apply_terminal_weights (horizon - 1) s)))
  else (false, s)

/-- Black-box model of the generated solver (its code is not among the
sources): the status codes of the two phases, the solution arrays written on
success, and the forward simulation used to seed a cold start. -/
structure SolverModel where
  prep_ret : Int
  feedback_ret : Int
  x_sol : Int → FReal
  u_sol : Int → FReal
  fsim : (Int → FReal) → (Nat → ℚ) → Int → FReal

/-- Embedding of `MpcController::solve`: a preparation phase and a feedback
phase, each fatal on a non-zero status code. -/
def solve (sm : SolverModel) (s : CState) : Except String CState :=
  if sm.prep_ret ≠ 0 then .error "Solver preparation error"
  else if sm.feedback_ret ≠ 0 then .error "Solver error"
  else .ok { s with x := sm.x_sol, u := sm.u_sol }

/-- Embedding of `MpcController::compute_command_impl`.  The temporal index
resolution (`get_current_state_temporal_index`) and the state prediction
(`predict`), both defined outside the sources, enter as parameters; `sm`
models the generated solver. -/
def compute_command_impl (sm : SolverModel) (predictF : Point → Int → Point)
    (traj : Trajectory) (current_idx : Nat) (state_stamp : Int)
    (state_point : Point) (s : CState) : CState × Except String Command :=
  let cold0 := update_references traj current_idx s
  let dt := x0_time_offset traj state_stamp current_idx
  let s1 := initial_conditions (predictF state_point dt) cold0.2
  let max_pts := traj.points.length
  let horizon := min (wsub max_pts current_idx) HORIZON
  let ens := ensure_reference_consistency horizon s1
  let cold_start := ens.1 || cold0.1
  let s2 := ens.2
  let s3 :=
    if cold_start then
      let su := { s2 with u := fun i =>
        if 0 ≤ i ∧ i < ((HORIZON * NU : Nat) : Int) then .fin 0 else s2.u i }
      { su with x := sm.fsim su.x su.x0 }
    else s2
  match solve sm s3 with
  | .error e => (s3, .error e)
  | .ok s4 =>
    (s4,
      interpolated_command s4.m_config.control_lookahead_duration s4.x s4.u
        dt)

/-- Modelled from the spec: `motion_common::heading_ok` (not among the
sources) checks that every heading value is a valid normalized 2D
orientation encoding. -/
def heading_ok (traj : Trajectory) : Bool :=
  traj.points.all fun p => p.heading_re ^ 2 + p.heading_im ^ 2 == 1

/-- Timing check of `check_new_trajectory` for the point at index `idx`:
its absolute timestamp must lie in `[ref - tol, ref + tol]` around the
nominal expected timestamp `ref = idx * step + header.stamp`. -/
def point_in_tolerance (cfg : Config) (traj : Trajectory) (idx : Nat)
    (pt : TrajPoint) : Bool :=
  let t0 := traj.stamp
  let ref := (idx : Int) * solver_time_step + t0
  let dt := cfg.sample_period_tolerance
  let ub := ref + dt
  let lb := ref - dt
  let t := pt.time_from_start + t0
  !(t < lb || t > ub)

/-- Embedding of `MpcController::check_new_trajectory`. -/
def check_new_trajectory (cfg : Config) (traj : Trajectory) : Bool :=
  if !heading_ok traj then false
  else if cfg.do_interpolate then true
  else traj.points.enum.all fun pi => point_in_tolerance cfg traj pi.1 pi.2

/-- Blank workspace, as left by `acado_initializeSolver` before
`apply_config` runs in the constructor; `m_last_reference_index` is
value-initialized to zero as in the source. -/
def blank_state (cfg : Config) : CState :=
  { m_last_reference_index := 0
    m_config := cfg
    base_config := cfg.behavior
    x0 := fun _ => 0
    x := fun _ => .fin 0
    u := fun _ => .fin 0
    y := fun _ => none
    od := fun _ => 0
    lbValues := fun _ => 0
    ubValues := fun _ => 0
    lbAValues := fun _ => 0
    ubAValues := fun _ => 0
    W := fun _ => .zeroed
    WN := .zeroed }

/-- Embedding of the `MpcController` constructor: solver initialization
followed by `apply_config`. -/
def construct (cfg : Config) : CState :=
  apply_config cfg (blank_state cfg)

/-- Configuration used by the concrete evaluations: interpolation enabled,
lookahead 250 ms. -/
def c1_cfg : Config :=
  { vehicle_param := ⟨1, 1⟩
    limits := ⟨⟨-3, 3⟩, ⟨-1, 1⟩, ⟨0, 30⟩⟩
    optimization_param := ⟨1, 10⟩
    behavior := 0
    do_interpolate := true
    control_lookahead_duration := 250000000
    sample_period_tolerance := 5000000 }

/-- Trajectory used by the concrete evaluations: 30 identical points with a
valid (normalized) heading. -/
def c1_traj : Trajectory :=
  ⟨0, List.replicate 30 ⟨0, 0, 0, 1, 0, 0, 0, 0, 0⟩⟩

/-- State point used by the concrete evaluations. -/
def c1_pt : Point := ⟨0, 0, 0, 0⟩

/-- Solver model whose solution state array carries a non-finite value at
flat entry 19 — the entry read for the output velocity at `count = 2` — and
finite controls everywhere. -/
def c1_sm : SolverModel :=
  { prep_ret := 0
    feedback_ret := 0
    x_sol := fun i => if i = 19 then .nonfinite else .fin 0
    u_sol := fun _ => .fin 0
    fsim := fun xs _ => xs }

/-- Solver model with an all-finite (zero) solution. -/
def c1_sm_ok : SolverModel :=
  { prep_ret := 0
    feedback_ret := 0
    x_sol := fun _ => .fin 0
    u_sol := fun _ => .fin 0
    fsim := fun xs _ => xs }

/-- Trajectory for the C3 evaluation: 20 points. -/
def c3_traj : Trajectory :=
  ⟨0, List.replicate 20 ⟨0, 0, 0, 1, 0, 0, 0, 0, 0⟩⟩

/-- Controller state for the C3 evaluation: the previous cycle resolved
reference index 2. -/
def c3_state : CState :=
  { construct c1_cfg with m_last_reference_index := 2 }

/-- Fold of `update_references` over a sequence of per-cycle resolved
indices (one call per control cycle). -/
def run_cycles (traj : Trajectory) (idxs : List Nat) (s : CState) : CState :=
  idxs.foldl (fun st i => (update_references traj i st).2) s

/-- Warm full-horizon cycle of `compute_command_impl`, written as the
committed bookkeeping state followed by the solve and the interpolation
(used to characterize the error path). -/
def warm_full_cycle (sm : SolverModel) (predictF : Point → Int → Point)
    (traj : Trajectory) (idx : Nat) (state_stamp : Int)
    (state_point : Point) (s : CState) : CState × Except String Command :=
  let s1 := initial_conditions
    (predictF state_point (x0_time_offset traj state_stamp idx))
    (update_references traj idx s).2
  match solve sm s1 with
  | .error e => (s1, .error e)
  | .ok s4 =>
    (s4, interpolated_command s4.m_config.control_lookahead_duration s4.x
      s4.u (x0_time_offset traj state_stamp idx))

/-- Reachable-state weight invariant of the reference window manager ahead
of a warm cycle, for active window length `k`: slots before `k - 1` hold
nominal weights, slot `k - 1` holds nominal or terminal weights, and slots
from `k` up to the horizon are zeroed.  A full-length window is the case
`k = HORIZON` with all slots nominal. -/
def WeightPre (s : CState) (k : Nat) : Prop :=
  1 ≤ k ∧ k ≤ HORIZON ∧
  (∀ i, i < k - 1 → (s.W i).isNominal = true) ∧
  ((s.W (k - 1)).isNominal = true ∨ (s.W (k - 1)).isTerminal = true) ∧
  (∀ i, k ≤ i → i < HORIZON → s.W i = .zeroed)

/-- Trajectory for the C5 witness: 12 points. -/
def c5_traj : Trajectory :=
  ⟨0, List.replicate 12 ⟨0, 0, 0, 1, 0, 0, 0, 0, 0⟩⟩

/-- Controller state for the C5 witness: the previous cycle resolved index
3 and left the weight slots in the invariant shape for active length 9. -/
def c5_state : CState :=
  { construct c1_cfg with
      m_last_reference_index := 3
      W := fun i => if i < 9 then .nominal 1 else .zeroed }

/-- Solver model whose preparation phase fails with status 1. -/
def c10_sm : SolverModel :=
  { prep_ret := 1
    feedback_ret := 0
    x_sol := fun _ => .fin 0
    u_sol := fun _ => .fin 0
    fsim := fun xs _ => xs }

/-- Flat state-array entry that the spec prescribes for the output velocity
(claim C2): the predicted state at step `count`, velocity component. -/
def spec_velocity_state_entry (count : Int) : Int :=
  count * (NX : Int) + (IDX_VEL_LONG : Int)

/-- Flat state-array entry actually read by `interpolated_command` for the
output velocity: `(count * NU) * NX + IDX_VEL_LONG`. -/
def code_velocity_state_entry (count : Int) : Int :=
  count * (NU : Int) * (NX : Int) + (IDX_VEL_LONG : Int)

/-- State array for the C2 evaluation: a non-finite marker at flat entry 11
(the entry the code reads at `count = 1`), finite zero everywhere else. -/
def c2_x : Int → FReal := fun i => if i = 11 then .nonfinite else .fin 0

/-- C2: evaluation of `interpolated_command` at `count = 1` (lookahead
150 ms, zero x0 time offset).  The output velocity is read from flat state
entry `(count * NU) * NX + IDX_VEL_LONG = 11` — the velocity of predicted
state step `2 * count` — and not from entry `count * NX + IDX_VEL_LONG = 7`
that the claim prescribes; from `count = 6` on the entry even lies beyond
the `(HORIZON + 1) * NX = 44` entries of the state array. -/
theorem c2_velocity_entry_eval :
    icount 150000000 0 = 1 ∧
    code_velocity_state_entry 1 = 11 ∧
    spec_velocity_state_entry 1 = 7 ∧
    (∃ c, interpolated_command 150000000 c2_x (fun _ => .fin 0) 0 = .ok c ∧
      c.velocity_mps = .nonfinite ∧
      c2_x (spec_velocity_state_entry 1) = .fin 0) ∧
    (HORIZON + 1) * NX = 44 ∧
    code_velocity_state_entry 6 = 51 ∧
    code_velocity_state_entry (icount 950000000 0) = 67 := by
  refine ⟨by decide, by decide, by decide, ⟨_, rfl, by decide, by decide⟩,
    by decide, by decide, by decide⟩

/-- C7: with step 100 ms, `HORIZON = 10`, lookahead 250 ms and zero x0 time
offset, the interpolator computes a remaining duration of 250 ms,
`count = min 2 (HORIZON - 2) = 2`, `fractional = 1/2`, and the output
longitudinal acceleration and steering angle are each the midpoint of the
control values at samples 2 and 3. -/
theorem c7_interpolation_example (x : Int → FReal) (v : Int → ℚ) :
    clamped_remaining 250000000 0 = 250000000 ∧
    icount 250000000 0 = min 2 ((HORIZON : Int) - 2) ∧
    ifrac 250000000 0 = 1 / 2 ∧
    interpolated_command 250000000 x (fun i => .fin (v i)) 0 =
      .ok { long_accel_mps2 :=
              .fin ((v (2 * (NU : Int) + (IDX_JERK : Int)) +
                v (3 * (NU : Int) + (IDX_JERK : Int))) / 2)
            front_wheel_angle_rad :=
              .fin ((v (2 * (NU : Int) + (IDX_WHEEL_ANGLE_RATE : Int)) +
                v (3 * (NU : Int) + (IDX_WHEEL_ANGLE_RATE : Int))) / 2)
            velocity_mps := x (2 * (NU : Int) * (NX : Int) + (IDX_VEL_LONG : Int))
            rear_wheel_angle_rad := .fin 0 } := by
  have hc : icount 250000000 0 = 2 := by decide
  have hl : leftover 250000000 0 = 50000000 := by decide
  have hf : ifrac 250000000 0 = 1 / 2 := by
    rw [ifrac, hl]
    norm_num [solver_time_step]
  refine ⟨by decide, by rw [hc]; decide, hf, ?_⟩
  simp only [interpolated_command, hc, hf, interpolate, FReal.add, FReal.sub,
    FReal.smul, FReal.isFinite, NU, NX, IDX_JERK, IDX_WHEEL_ANGLE_RATE,
    IDX_VEL_LONG]
  norm_num
  refine ⟨?_, ?_⟩ <;> ring

/-- C6 counterexample: at lookahead 250 ms and x0 time offset 400 ms the
remaining duration is negative, `count = -1 < 0` (so no valid successor
sample at `count + 1` is guaranteed) and `fractional = -1/2 < 0`. -/
theorem c6_counterexample :
    icount 250000000 400000000 = -1 ∧
    ¬0 ≤ icount 250000000 400000000 ∧
    ifrac 250000000 400000000 < 0 := by
  refine ⟨by decide, by decide, ?_⟩
  have hl : leftover 250000000 400000000 = -50000000 := by decide
  rw [ifrac, hl]
  norm_num [solver_time_step]

/-- C6 amended: whenever the un-clamped remaining duration
`lookahead - x0_offset` is nonnegative, `count` lies in `[0, HORIZON - 2]`
and `fractional` lies in `[0, 1]`; `fractional < 1` holds whenever the
remaining duration is strictly below the clamp `step * (HORIZON - 1)` (at or
above the clamp, `fractional` is exactly 1). -/
theorem c6_amended_bounds (lookahead x0_offset : Int)
    (h : 0 ≤ lookahead - x0_offset) :
    0 ≤ icount lookahead x0_offset ∧
    icount lookahead x0_offset ≤ (HORIZON : Int) - 2 ∧
    0 ≤ ifrac lookahead x0_offset ∧
    ifrac lookahead x0_offset ≤ 1 ∧
    (lookahead - x0_offset < solver_time_step * ((HORIZON : Int) - 1) →
      ifrac lookahead x0_offset < 1) := by
  have hstep : (0 : Int) < solver_time_step := by decide
  have hH2 : (HORIZON : Int) - 2 = 8 := by norm_num [HORIZON]
  have hM : solver_time_step * ((HORIZON : Int) - 1) = 900000000 := by
    norm_num [HORIZON, solver_time_step]
  have hc0 : 0 ≤ clamped_remaining lookahead x0_offset := by
    simp only [clamped_remaining]
    split
    · decide
    · exact h
  have hcM : clamped_remaining lookahead x0_offset ≤ 900000000 := by
    simp only [clamped_remaining]
    rw [hM]
    split <;> omega
  have hceq : lookahead - x0_offset < solver_time_step * ((HORIZON : Int) - 1) →
      clamped_remaining lookahead x0_offset = lookahead - x0_offset := by
    intro hlt
    simp only [clamped_remaining]
    split <;> omega
  set c := clamped_remaining lookahead x0_offset with hcdef
  have htd : Int.tdiv c solver_time_step = c / solver_time_step :=
    Int.tdiv_eq_ediv hc0 (by decide)
  have hicount : icount lookahead x0_offset =
      min (c / solver_time_step) 8 := by
    rw [icount, ← hcdef, htd, hH2]
  have hleft : leftover lookahead x0_offset =
      c - min (c / solver_time_step) 8 * solver_time_step := by
    rw [leftover, ← hcdef, hicount]
  have hqnn : 0 ≤ c / solver_time_step := Int.ediv_nonneg hc0 (by decide)
  have hfr : ∀ a b : Int, 0 ≤ a → a ≤ b → 0 < b →
      0 ≤ (a : ℚ) / (b : ℚ) ∧ (a : ℚ) / (b : ℚ) ≤ 1 := by
    intro a b ha hab hb
    constructor
    · apply div_nonneg
      · exact_mod_cast ha
      · exact_mod_cast le_of_lt hb
    · rw [div_le_one (by exact_mod_cast hb)]
      exact_mod_cast hab
  by_cases hq : c / solver_time_step ≤ 8
  · have hmin : min (c / solver_time_step) 8 = c / solver_time_step :=
      min_eq_left hq
    have hmod : c - c / solver_time_step * solver_time_step =
        c % solver_time_step := by
      rw [Int.emod_def]
      ring
    have hm0 : 0 ≤ c % solver_time_step := Int.emod_nonneg c (by decide)
    have hms : c % solver_time_step < solver_time_step :=
      Int.emod_lt_of_pos c hstep
    have hlv : leftover lookahead x0_offset = c % solver_time_step := by
      rw [hleft, hmin, hmod]
    have hifr : ifrac lookahead x0_offset =
        ((c % solver_time_step : Int) : ℚ) / ((solver_time_step : Int) : ℚ) := by
      rw [ifrac, hlv]
    refine ⟨?_, ?_, ?_, ?_, ?_⟩
    · rw [hicount, hmin]; exact hqnn
    · rw [hicount, hH2]; exact min_le_right _ _
    · exact (hifr ▸ (hfr _ _ hm0 (le_of_lt hms) hstep).1)
    · exact (hifr ▸ (hfr _ _ hm0 (le_of_lt hms) hstep).2)
    · intro _
      rw [hifr, div_lt_one (by exact_mod_cast hstep)]
      exact_mod_cast hms
  · push_neg at hq
    have h9 : 9 ≤ c / solver_time_step := hq
    have h9c : 9 * solver_time_step ≤ c :=
      (Int.le_ediv_iff_mul_le hstep).mp h9
    have hceq9 : c = 9 * solver_time_step := by
      have h9c' : (900000000 : Int) ≤ c := by
        have h9cc := h9c
        rw [show solver_time_step = (100000000 : Int) from rfl] at h9cc
        linarith
      rw [show solver_time_step = (100000000 : Int) from rfl]
      linarith [hcM]
    have hmin : min (c / solver_time_step) 8 = 8 := min_eq_right (by linarith [h9])
    have hlv : leftover lookahead x0_offset = solver_time_step := by
      rw [hleft, hmin, hceq9]
      ring
    have hifr : ifrac lookahead x0_offset = 1 := by
      rw [ifrac, hlv, div_self]
      norm_num [solver_time_step]
    refine ⟨?_, ?_, ?_, ?_, ?_⟩
    · rw [hicount, hmin]; decide
    · rw [hicount, hmin, hH2]
    · rw [hifr]; norm_num
    · rw [hifr]
    · intro hlt
      exfalso
      have heq := hceq hlt
      rw [hM] at hlt
      have hc9 : c = 900000000 := by
        rw [hceq9]
        decide
      linarith

/-- Closed witness for the amended C6 bounds at lookahead 250 ms and zero
x0 time offset. -/
theorem c6_amended_bounds_witness :
    0 ≤ icount 250000000 0 ∧
    icount 250000000 0 ≤ (HORIZON : Int) - 2 ∧
    0 ≤ ifrac 250000000 0 ∧
    ifrac 250000000 0 ≤ 1 ∧
    ((250000000 : Int) - 0 < solver_time_step * ((HORIZON : Int) - 1) →
      ifrac 250000000 0 < 1) :=
  c6_amended_bounds 250000000 0 (by decide)

/-- Shared helper: an accepted result of `interpolated_command` always has a
finite longitudinal acceleration, a finite front wheel angle and a zero rear
wheel angle (the finiteness guard has passed and the rear wheel angle is the
constant zero). -/
theorem interpolated_ok_fields (lookahead : Int) (x u : Int → FReal)
    (x0_offset : Int) (c : Command)
    (h : interpolated_command lookahead x u x0_offset = .ok c) :
    c.long_accel_mps2.isFinite = true ∧
    c.front_wheel_angle_rad.isFinite = true ∧
    c.rear_wheel_angle_rad = .fin 0 := by
  simp only [interpolated_command] at h
  split at h
  · exact absurd h (by simp)
  · next hguard =>
      rw [Except.ok.injEq] at h
      subst h
      simp only [Bool.or_eq_true, Bool.not_eq_true', not_or] at hguard
      exact ⟨by simpa using hguard.1, by simpa using hguard.2, rfl⟩

/-- C1 amended: whenever `compute_command` returns a `Command` (rather than
failing), its longitudinal acceleration and front wheel angle are finite and
its rear wheel angle is the finite constant zero; the velocity field is
copied from the solver state array without a finiteness check. -/
theorem c1_amended_finiteness (sm : SolverModel)
    (predictF : Point → Int → Point) (traj : Trajectory) (current_idx : Nat)
    (state_stamp : Int) (state_point : Point) (s : CState) (c : Command)
    (h : (compute_command_impl sm predictF traj current_idx state_stamp
      state_point s).2 = .ok c) :
    c.long_accel_mps2.isFinite = true ∧
    c.front_wheel_angle_rad.isFinite = true ∧
    c.rear_wheel_angle_rad = .fin 0 := by
  simp only [compute_command_impl] at h
  split at h
  · exact absurd h (by simp)
  · exact interpolated_ok_fields _ _ _ _ _ (by simpa using h)

/-- Closed witness for the amended C1 theorem: a concrete successful cycle. -/
theorem c1_amended_finiteness_witness :
    (FReal.fin 0).isFinite = true ∧ (FReal.fin 0).isFinite = true ∧
    FReal.fin 0 = FReal.fin 0 :=
  c1_amended_finiteness c1_sm_ok (fun p _ => p) c1_traj 1 0 c1_pt
    (construct c1_cfg) ⟨.fin 0, .fin 0, .fin 0, .fin 0⟩
    (by
      have hrun : (compute_command_impl c1_sm_ok (fun p _ => p) c1_traj 1 0
          c1_pt (construct c1_cfg)).2 =
          interpolated_command 250000000 (fun _ => .fin 0) (fun _ => .fin 0)
            0 := rfl
      rw [hrun]
      simp [interpolated_command, interpolate, FReal.add, FReal.sub,
        FReal.smul, FReal.isFinite])

/-- C1 counterexample: a valid cycle (accepted trajectory, solver success)
in which `compute_command` returns a `Command` — no error — whose velocity
field is non-finite: the finiteness validation does not cover the velocity
field, which is copied from the solver state array unchecked. -/
theorem c1_counterexample :
    check_new_trajectory c1_cfg c1_traj = true ∧
    ((compute_command_impl c1_sm (fun p _ => p) c1_traj 1 0 c1_pt
        (construct c1_cfg)).2.toOption.map Command.velocity_mps =
      some .nonfinite) ∧
    ((compute_command_impl c1_sm (fun p _ => p) c1_traj 1 0 c1_pt
        (construct c1_cfg)).2.toOption.map
        (fun c => c.velocity_mps.isFinite) = some false) := by
  refine ⟨?_, by decide, by decide⟩
  have hh : heading_ok c1_traj = true := by
    simp only [heading_ok, c1_traj, List.all_eq_true, List.mem_replicate]
    intro p hp
    rw [hp.2]
    norm_num
  simp [check_new_trajectory, hh, c1_cfg]

/-- C9: replacing the config twice in succession with the same value leaves
the solver's bound arrays, online-parameter array and weight slots exactly
as a single replacement does. -/
theorem c9_set_config_idempotent (cfg : Config) (s : CState) :
    (set_config cfg (set_config cfg s)).od = (set_config cfg s).od ∧
    (set_config cfg (set_config cfg s)).lbValues =
      (set_config cfg s).lbValues ∧
    (set_config cfg (set_config cfg s)).ubValues =
      (set_config cfg s).ubValues ∧
    (set_config cfg (set_config cfg s)).lbAValues =
      (set_config cfg s).lbAValues ∧
    (set_config cfg (set_config cfg s)).ubAValues =
      (set_config cfg s).ubAValues ∧
    (set_config cfg (set_config cfg s)).W = (set_config cfg s).W ∧
    (set_config cfg (set_config cfg s)).WN = (set_config cfg s).WN := by
  refine ⟨?_, ?_, ?_, ?_, ?_, ?_, rfl⟩ <;>
    · funext j
      dsimp only [set_config, apply_config, apply_weights, apply_bounds,
        apply_parameters]
      split_ifs <;> rfl

/-- Shared helper: the Boolean per-point timing check of the validator is
exactly the spec's within-tolerance condition on the point's absolute
timestamp. -/
theorem point_in_tolerance_iff (cfg : Config) (traj : Trajectory) (idx : Nat)
    (pt : TrajPoint) :
    point_in_tolerance cfg traj idx pt = true ↔
      |(traj.stamp + pt.time_from_start) -
          ((idx : Int) * solver_time_step + traj.stamp)| ≤
        cfg.sample_period_tolerance := by
  simp only [point_in_tolerance, Bool.not_eq_true', Bool.or_eq_false_iff,
    decide_eq_false_iff_not, not_lt]
  rw [abs_le]
  constructor
  · intro h
    omega
  · intro h
    omega

/-- C8: the validator accepts a trajectory iff every heading is a valid
normalized 2D orientation encoding and — unless interpolation is enabled, in
which case nothing further is checked — every point's absolute timestamp
(`header.stamp + time_from_start`) lies within the sample-period tolerance
of its nominal timestamp `index * step + header.stamp`. -/
theorem c8_validator_semantics (cfg : Config) (traj : Trajectory) :
    check_new_trajectory cfg traj = true ↔
      (heading_ok traj = true ∧
        (cfg.do_interpolate = true ∨
          ∀ (i : Nat) (h : i < traj.points.length),
            |(traj.stamp + traj.points[i].time_from_start) -
                ((i : Int) * solver_time_step + traj.stamp)| ≤
              cfg.sample_period_tolerance)) := by
  rw [check_new_trajectory]
  cases hh : heading_ok traj with
  | false => simp [hh]
  | true =>
    cases hdi : cfg.do_interpolate with
    | true => simp [hdi]
    | false =>
      simp [hh, hdi, List.all_eq_true, List.forall_mem_enum,
        point_in_tolerance_iff]
      constructor
      · intro hall i hi
        exact hall i (traj.points.get ⟨i, hi⟩)
          (List.mk_mem_enum_iff_getElem?.mpr (List.getElem?_eq_getElem hi))
      · intro hp a b hmem
        obtain ⟨hlt, heq⟩ := List.getElem?_eq_some_iff.mp
          (List.mk_mem_enum_iff_getElem?.mp hmem)
        subst heq
        exact hp a hlt

/-- Shared helper: unsigned subtraction computes the ordinary difference on
in-range, non-regressing operands. -/
theorem wsub_eq_sub (a b : Nat) (hba : b ≤ a) (ha : a < USIZE) :
    wsub a b = a - b := by
  have hb : b < USIZE := lt_of_le_of_lt hba ha
  rw [wsub, Nat.mod_eq_of_lt ha, Nat.mod_eq_of_lt hb]
  have hsplit : a + (USIZE - b) = USIZE + (a - b) := by omega
  rw [hsplit, Nat.add_mod_left]
  exact Nat.mod_eq_of_lt (by omega)

/-- C3: evaluation of `update_references` at a regressed index (1 after 2)
and at an out-of-range index (25 on a 20-point trajectory).  Both calls
return normally — the function has no error channel at all — silently
committing the bad index; the regressed advance wraps around to
`2 ^ 64 - 1` and the out-of-range remaining length wraps to `2 ^ 64 - 5`. -/
theorem c3_no_fail_fast_eval :
    wsub 1 2 = 2 ^ 64 - 1 ∧
    (update_references c3_traj 1 c3_state).1 = false ∧
    (update_references c3_traj 1 c3_state).2.m_last_reference_index = 1 ∧
    (update_references c3_traj 25 c3_state).1 = false ∧
    (update_references c3_traj 25 c3_state).2.m_last_reference_index = 25 ∧
    wsub c3_traj.points.length 25 = 2 ^ 64 - 5 := by
  refine ⟨by decide, by decide, by decide, by decide, by decide, by decide⟩

/-- Shared helper: a zero index is a cold start that leaves the state
untouched. -/
theorem update_references_cold (traj : Trajectory) (s : CState) :
    update_references traj 0 s = (true, s) := by
  rw [update_references]
  simp

/-- Shared helper: a warm cycle reports no cold start and commits the
resolved index into the bookkeeping. -/
theorem update_references_warm (traj : Trajectory) (idx : Nat) (s : CState)
    (h : idx ≠ 0) :
    (update_references traj idx s).1 = false ∧
    (update_references traj idx s).2.m_last_reference_index = idx := by
  rw [update_references, if_neg h]
  exact ⟨rfl, rfl⟩

/-- Shared helper: cycles with index zero never change the state. -/
theorem run_cycles_zeros (traj : Trajectory) (l : List Nat) (s : CState)
    (h : ∀ i ∈ l, i = 0) : run_cycles traj l s = s := by
  induction l generalizing s with
  | nil => rfl
  | cons hd tl ih =>
    have hhd : hd = 0 := h hd (by simp)
    subst hhd
    show run_cycles traj tl (update_references traj 0 s).2 = s
    rw [update_references_cold]
    exact ih s fun i hi => h i (by simp [hi])

/-- C4: `update_references` returns `true` and performs nothing iff the
index is zero; every warm cycle commits the passed index; and across any
sequence of cycles with non-decreasing resolved indices, starting from the
zero-initialized bookkeeping, the committed index after each cycle equals
the index passed in that cycle. -/
theorem c4_cold_iff_and_index_monotone (traj : Trajectory) (s : CState)
    (idx : Nat) (l pre : List Nat) (a : Nat) (post : List Nat)
    (hs : s.m_last_reference_index = 0)
    (hchain : l.Chain' (· ≤ ·)) (hdecomp : l = pre ++ a :: post) :
    ((update_references traj idx s).1 = true ↔ idx = 0) ∧
    (idx = 0 → (update_references traj idx s).2 = s) ∧
    (idx ≠ 0 →
      (update_references traj idx s).2.m_last_reference_index = idx) ∧
    (run_cycles traj (pre ++ [a]) s).m_last_reference_index = a := by
  refine ⟨?_, ?_, ?_, ?_⟩
  · constructor
    · intro h
      by_contra hne
      have := (update_references_warm traj idx s hne).1
      rw [h] at this
      exact Bool.true_eq_false.mp this
    · intro h
      subst h
      rw [update_references_cold]
  · intro h
    subst h
    rw [update_references_cold]
  · intro h
    exact (update_references_warm traj idx s h).2
  · rcases Nat.eq_zero_or_pos a with ha | ha
    · subst ha
      have hpre0 : ∀ i ∈ pre ++ [0], i = 0 := by
        have hch : (pre ++ [0]).Chain' (· ≤ ·) := by
          rw [hdecomp, List.append_cons] at hchain
          exact hchain.left_of_append
        have hpw : (pre ++ [0]).Pairwise (· ≤ ·) :=
          List.chain'_iff_pairwise.mp hch
        intro i hi
        rcases List.mem_append.mp hi with hip | his
        · have := (List.pairwise_append.mp hpw).2.2 i hip 0 (by simp)
          omega
        · simpa using his
      rw [run_cycles_zeros traj (pre ++ [0]) s hpre0]
      exact hs
    · have hstep : run_cycles traj (pre ++ [a]) s =
          (update_references traj a (run_cycles traj pre s)).2 := by
        rw [run_cycles, List.foldl_append]
        rfl
      rw [hstep]
      exact (update_references_warm traj a _ (by omega)).2

/-- Closed witness for C4 at a concrete cycle sequence 0, 2, 5 and a warm
index 3. -/
theorem c4_witness :
    ((update_references c1_traj 3 (construct c1_cfg)).1 = true ↔ 3 = 0) ∧
    (3 = 0 → (update_references c1_traj 3 (construct c1_cfg)).2 =
      construct c1_cfg) ∧
    (3 ≠ 0 → (update_references c1_traj 3
      (construct c1_cfg)).2.m_last_reference_index = 3) ∧
    (run_cycles c1_traj ([0, 2] ++ [5])
      (construct c1_cfg)).m_last_reference_index = 5 :=
  c4_cold_iff_and_index_monotone c1_traj (construct c1_cfg) 3 [0, 2, 5]
    [0, 2] 5 [] (by decide) (by simp [List.chain'_cons]) rfl

/-- Shared helper: a nominal weight slot is not a terminal one. -/
theorem wslot_nominal_not_terminal (w : WSlot) (h : w.isNominal = true) :
    w.isTerminal = false := by
  cases w <;> simp_all [WSlot.isNominal, WSlot.isTerminal]

/-- Shared helper: on a warm receding cycle, the weight slots after
`update_references` are the previous ones overwritten by the terminal write
at `receded - 1` and the zeroing of `[receded, receded + advance)`. -/
theorem update_references_recede_W (traj : Trajectory) (idx : Nat)
    (s : CState) (hidx : idx ≠ 0)
    (hbr : ¬ HORIZON ≤ wsub traj.points.length idx) :
    (update_references traj idx s).2.W = fun j =>
      if wsub traj.points.length idx ≤ j ∧
          j < (wsub traj.points.length idx +
            wsub idx s.m_last_reference_index) % USIZE then .zeroed
      else if j = wsub (wsub traj.points.length idx) 1 then
        .terminal s.m_config.optimization_param.terminal_weight
      else s.W j := by
  rw [update_references, if_neg hidx]
  dsimp only
  rw [if_neg hbr]
  rfl

/-- C5: on a warm cycle whose remaining reference length
`r = trajectory.length - current_idx` has receded below `HORIZON`, starting
from a state satisfying the window manager's weight invariant,
`update_references` leaves terminal weights at slot `r - 1` and at no other
slot, and every nominal slot from `r` on is zeroed. -/
theorem c5_terminal_weight_placement (traj : Trajectory) (s : CState)
    (idx : Nat) (hidx : idx ≠ 0) (hle : s.m_last_reference_index ≤ idx)
    (hmu : traj.points.length < USIZE) (hitl : idx ≤ traj.points.length)
    (hr1 : 1 ≤ traj.points.length - idx)
    (hrH : traj.points.length - idx < HORIZON)
    (hpre : WeightPre s
      (min (traj.points.length - s.m_last_reference_index) HORIZON)) :
    ((update_references traj idx s).2.W (traj.points.length - idx - 1) =
      .terminal s.m_config.optimization_param.terminal_weight) ∧
    (∀ i, i < HORIZON → i ≠ traj.points.length - idx - 1 →
      ((update_references traj idx s).2.W i).isTerminal = false) ∧
    (∀ i, traj.points.length - idx ≤ i → i < HORIZON →
      (update_references traj idx s).2.W i = .zeroed) := by
  obtain ⟨hk1, hkH, hnomlt, hnomend, hzero⟩ := hpre
  have hilt : idx < USIZE := lt_of_le_of_lt hitl hmu
  have hbr : ¬ HORIZON ≤ wsub traj.points.length idx := by
    rw [wsub_eq_sub _ _ hitl hmu]
    omega
  rw [update_references_recede_W traj idx s hidx hbr]
  rw [wsub_eq_sub _ _ hitl hmu, wsub_eq_sub _ _ hle hilt]
  set len := traj.points.length with hlendef
  set lr := s.m_last_reference_index with hlrdef
  have hsum : (len - idx + (idx - lr)) % USIZE = len - lr := by
    have he : len - idx + (idx - lr) = len - lr := by omega
    rw [he]
    exact Nat.mod_eq_of_lt (by omega)
  have hr1w : wsub (len - idx) 1 = len - idx - 1 :=
    wsub_eq_sub _ _ (by omega) (by omega)
  rw [hsum, hr1w]
  have hrk : len - idx ≤ min (len - lr) HORIZON := by
    rcases Nat.le_total (len - lr) HORIZON with hc | hc
    · rw [min_eq_left hc]
      omega
    · rw [min_eq_right hc]
      omega
  refine ⟨?_, ?_, ?_⟩
  · dsimp only
    rw [if_neg (by omega), if_pos rfl]
  · intro i hiH hine
    dsimp only
    by_cases hz : len - idx ≤ i ∧ i < len - lr
    · rw [if_pos hz]
      rfl
    · rw [if_neg hz, if_neg hine]
      push_neg at hz
      by_cases hlow : i < len - idx - 1
      · exact wslot_nominal_not_terminal _ (hnomlt i (by omega))
      · have hge : len - lr ≤ i := by omega
        have hzi : s.W i = .zeroed :=
          hzero i (le_trans (min_le_left _ _) hge) hiH
        rw [hzi]
        rfl
  · intro i hri hiH
    dsimp only
    by_cases hz : i < len - lr
    · rw [if_pos ⟨hri, hz⟩]
    · push_neg at hz
      rw [if_neg (by omega), if_neg (by omega)]
      exact hzero i (le_trans (min_le_left _ _) hz) hiH

/-- Closed witness for C5: a concrete receding warm cycle (12-point
trajectory, current index 5, previous index 3, remaining length 7).
Terminal weights land exactly at slot 6; slot 3 is not terminal; slot 8 is
zeroed. -/
theorem c5_witness :
    ((update_references c5_traj 5 c5_state).2.W
        (c5_traj.points.length - 5 - 1) =
      .terminal c5_state.m_config.optimization_param.terminal_weight) ∧
    ((update_references c5_traj 5 c5_state).2.W 3).isTerminal = false ∧
    (update_references c5_traj 5 c5_state).2.W 8 = .zeroed := by
  have hW : ∀ i, c5_state.W i =
      if i < 9 then WSlot.nominal 1 else WSlot.zeroed := fun i => rfl
  have h := c5_terminal_weight_placement c5_traj c5_state 5 (by decide)
    (by decide) (by decide) (by decide) (by decide) (by decide)
    (by
      have hmin : min (c5_traj.points.length -
          c5_state.m_last_reference_index) HORIZON = 9 := by decide
      simp only [WeightPre, hmin]
      refine ⟨by omega, by decide, ?_, ?_, ?_⟩
      · intro i hi
        rw [hW i, if_pos (by omega)]
        rfl
      · left
        rw [hW (9 - 1), if_pos (by omega)]
        rfl
      · intro i h9 hH
        rw [hW i, if_neg (by omega)])
  exact ⟨h.1, h.2.1 3 (by decide) (by decide), h.2.2 8 (by decide) (by decide)⟩

/-- Shared helper: on a warm non-receding cycle, `update_references` is the
advance plus backfill composition with the committed index. -/
theorem update_references_backfill_eq (traj : Trajectory) (idx : Nat)
    (s : CState) (hidx : idx ≠ 0)
    (hbr : HORIZON ≤ wsub traj.points.length idx) :
    update_references traj idx s =
      (false,
        { backfill_reference traj idx (wsub idx s.m_last_reference_index)
            (advance_problem (wsub idx s.m_last_reference_index) s) with
          m_last_reference_index := idx }) := by
  rw [update_references, if_neg hidx]
  dsimp only
  rw [if_pos hbr]

/-- Shared helper: on a warm cycle with a full-length remaining reference,
`compute_command_impl` reduces to the committed bookkeeping state followed
by the solve and the interpolation. -/
theorem compute_command_impl_warm_full_eq (sm : SolverModel)
    (predictF : Point → Int → Point) (traj : Trajectory) (idx : Nat)
    (state_stamp : Int) (state_point : Point) (s : CState)
    (hidx : idx ≠ 0) (hbr : HORIZON ≤ wsub traj.points.length idx) :
    compute_command_impl sm predictF traj idx state_stamp state_point s =
      warm_full_cycle sm predictF traj idx state_stamp state_point s := by
  rw [compute_command_impl, warm_full_cycle]
  dsimp only
  rw [min_eq_right hbr]
  rw [ensure_reference_consistency]
  rw [if_neg (lt_irrefl HORIZON)]
  dsimp only
  rw [(update_references_warm traj idx s hidx).1]
  rfl

/-- C10: on a warm cycle with a full-length remaining reference, if either
solver phase fails, `compute_command_impl` raises the error with the
reference-window bookkeeping of the cycle already committed: the returned
state has `m_last_reference_index = current index`, its control sequence is
the advanced one and its reference window the backfilled one — nothing is
rolled back. -/
theorem c10_error_path_commits (sm : SolverModel)
    (predictF : Point → Int → Point) (traj : Trajectory) (idx : Nat)
    (state_stamp : Int) (state_point : Point) (s : CState)
    (hidx : idx ≠ 0) (hbr : HORIZON ≤ wsub traj.points.length idx)
    (hfail : sm.prep_ret ≠ 0 ∨ sm.feedback_ret ≠ 0) :
    ((compute_command_impl sm predictF traj idx state_stamp state_point
        s).2.toOption = none) ∧
    ((compute_command_impl sm predictF traj idx state_stamp state_point
        s).1.m_last_reference_index = idx) ∧
    ((compute_command_impl sm predictF traj idx state_stamp state_point
        s).1.u =
      (advance_problem (wsub idx s.m_last_reference_index) s).u) ∧
    ((compute_command_impl sm predictF traj idx state_stamp state_point
        s).1.y =
      (backfill_reference traj idx (wsub idx s.m_last_reference_index)
        (advance_problem (wsub idx s.m_last_reference_index) s)).y) := by
  rw [compute_command_impl_warm_full_eq sm predictF traj idx state_stamp
    state_point s hidx hbr]
  rw [warm_full_cycle]
  rw [update_references_backfill_eq traj idx s hidx hbr]
  rw [solve]
  by_cases hp : sm.prep_ret = 0
  · have hf : sm.feedback_ret ≠ 0 := by tauto
    rw [if_neg (by simp [hp]), if_pos hf]
    exact ⟨rfl, rfl, rfl, rfl⟩
  · rw [if_pos hp]
    exact ⟨rfl, rfl, rfl, rfl⟩

/-- Closed witness for C10: preparation failure on a warm full-horizon cycle
over a 30-point trajectory at index 3, starting from the constructed state. -/
theorem c10_witness :
    ((compute_command_impl c10_sm (fun p _ => p) c1_traj 3 0 c1_pt
        (construct c1_cfg)).2.toOption = none) ∧
    ((compute_command_impl c10_sm (fun p _ => p) c1_traj 3 0 c1_pt
        (construct c1_cfg)).1.m_last_reference_index = 3) ∧
    ((compute_command_impl c10_sm (fun p _ => p) c1_traj 3 0 c1_pt
        (construct c1_cfg)).1.u =
      (advance_problem (wsub 3 (construct c1_cfg).m_last_reference_index)
        (construct c1_cfg)).u) ∧
    ((compute_command_impl c10_sm (fun p _ => p) c1_traj 3 0 c1_pt
        (construct c1_cfg)).1.y =
      (backfill_reference c1_traj 3
        (wsub 3 (construct c1_cfg).m_last_reference_index)
        (advance_problem (wsub 3 (construct c1_cfg).m_last_reference_index)
          (construct c1_cfg))).y) :=
  c10_error_path_commits c10_sm (fun p _ => p) c1_traj 3 0 c1_pt
    (construct c1_cfg) (by decide) (by decide) (Or.inl (by decide))

end Mpc
